import Mathlib

/-!
Verification of the pull-request review pipeline of a GitHub code-review
agent.  The definitions below are a shallow embedding of the JavaScript
source: the webhook signature middleware (`validateWebhookSignature`),
the file triage (`filterReviewableFiles`), the analysis orchestration
(`analyzeFile`, `analyzeFiles`), the tolerant response parser
(`parseAIResponse`) and the event dispatch (`webhookHandle`).
External platform primitives (HMAC-SHA256, express's request-body
parser and `JSON.stringify` — the middleware hashes the
re-serialization `JSON.stringify(req.body)`, not the raw request
bytes — the `JSON.parse` of backend answers, the GitHub API, the
text-generation backend) are modelled as explicit parameters;
everything the repository itself computes is translated directly from
its code.
-/

namespace CodeReviewAgent

/-! ## Signature verification (middleware/webhookAuth.js)

Byte strings are modelled as `List Nat`.  `crypto.timingSafeEqual`
throws when the two buffers have different lengths, so it is embedded
as an `Except`; the middleware's `try`/`catch` turns that exception
into a 401 response.  The HMAC-SHA256 hex digest is a platform
primitive and is passed in as the function parameter `hmacHex`. -/

/-- Outcome of the express middleware: either `next()` is called and the
handler chain continues, or a 401 response with the given error message
is returned. -/
inductive AuthOutcome where
  | next : AuthOutcome
  | unauthorized : String → AuthOutcome
deriving DecidableEq, Repr

/-- `true` exactly when the middleware answered with a 401 response. -/
def AuthOutcome.isRejected : AuthOutcome → Bool
  | .next => false
  | .unauthorized _ => true

/-- A JavaScript value produced by `JSON.parse` — the parsed request
body that express's `express.json()` middleware stores in `req.body`
(hashed after re-serialization by the signature middleware), and the
decoded backend response consumed by `parseAIResponse`. -/
inductive Json where
  | null : Json
  | bool : Bool → Json
  | num : Int → Json
  | str : String → Json
  | arr : List Json → Json
  | obj : List (String × Json) → Json
deriving Repr

/-- `crypto.timingSafeEqual`: throws a `RangeError` when the buffers
have different byte lengths, otherwise reports byte-wise equality
(computed without early exit; only the result is observable here). -/
def timingSafeEqual (a b : List Nat) : Except String Bool :=
  if a.length = b.length then .ok (a == b)
  else .error "Input buffers must have the same byte length"

/-- The UTF-8 bytes of the string "sha256=", the prefix the middleware
prepends to the hex digest. -/
def sha256Prefix : List Nat := [115, 104, 97, 50, 53, 54, 61]

/-- Embedding of `validateWebhookSignature` (middleware/webhookAuth.js)
from its hashing step on: `payload` is the string the middleware hashes
— `JSON.stringify(req.body)`, computed at the top of the function and
composed in `validateWebhookSignatureOnRequest` below — and
`hmacHex secret payload` stands for the bytes of
`crypto.createHmac('sha256', secret).update(payload).digest('hex')`.
An absent or empty secret skips validation (`!secret`); an absent or
empty signature header yields 401 "Missing signature"; otherwise the
header is compared against `"sha256=" ++ hmacHex secret payload` with
`timingSafeEqual`, whose exception is caught and turned into a 401. -/
def validateWebhookSignature (hmacHex : List Nat → List Nat → List Nat)
    (secret : List Nat) (signature : Option (List Nat)) (payload : List Nat) :
    AuthOutcome :=
  if secret.isEmpty then .next
  else
    match signature with
    | none => .unauthorized "Missing signature"
    | some sig =>
      if sig.isEmpty then .unauthorized "Missing signature"
      else
        let expected := sha256Prefix ++ hmacHex secret payload
        match timingSafeEqual sig expected with
        | .error _ => .unauthorized "Signature validation failed"
        | .ok true => .next
        | .ok false => .unauthorized "Invalid signature"

/-- If the provided header differs from the expected value in any way,
the middleware rejects with a 401 (either "Invalid signature" when the
lengths agree, or "Signature validation failed" when `timingSafeEqual`
throws). -/
theorem validateWebhookSignature_rejects_of_ne
    (hmacHex : List Nat → List Nat → List Nat)
    (secret : List Nat) (sig payload : List Nat)
    (hs : secret ≠ []) (hsig : sig ≠ [])
    (hne : sig ≠ sha256Prefix ++ hmacHex secret payload) :
    (validateWebhookSignature hmacHex secret (some sig) payload).isRejected = true := by
  unfold validateWebhookSignature timingSafeEqual
  simp only [List.isEmpty_iff, hs, if_false, hsig]
  by_cases hlen : sig.length = (sha256Prefix ++ hmacHex secret payload).length
  · have hb : (sig == sha256Prefix ++ hmacHex secret payload) = false :=
      beq_eq_false_iff_ne.mpr hne
    simp [hlen, hb, AuthOutcome.isRejected]
  · rw [List.length_append] at hlen
    simp [hlen, AuthOutcome.isRejected]

/-- Setting position `i` of `l` to a value different from the one
already there produces a different list. -/
theorem List.set_ne_self_of_ne (l : List Nat) (i b : Nat)
    (h : i < l.length) (hb : b ≠ l.getD i 0) : l.set i b ≠ l := by
  intro hEq
  apply hb
  have := congrArg (fun t => t.getD i 0) hEq
  simpa [List.getD_eq_getElem?_getD, List.getElem?_set_self, h,
    List.getElem?_eq_getElem] using this

/-- The whole middleware on the raw request bytes, line 34
(`const payload = JSON.stringify(req.body)`) included: express's body
parser (`parseHttp`, a platform primitive; express answers 400 itself
on unparsable bodies, before this middleware runs) produced `req.body`
from the raw bytes, and the middleware hashes the *re-serialization*
`JSON.stringify(req.body)` (`stringify`, also a platform primitive) —
not the raw bytes themselves. -/
def validateWebhookSignatureOnRequest
    (hmacHex : List Nat → List Nat → List Nat)
    (parseHttp : List Nat → Json) (stringify : Json → List Nat)
    (secret : List Nat) (signature : Option (List Nat)) (rawBody : List Nat) :
    AuthOutcome :=
  validateWebhookSignature hmacHex secret signature (stringify (parseHttp rawBody))

/-- `JSON.parse` at the two request bodies of the C1 scenario: both
the canonical text `{"a":1}` (bytes `123,34,97,34,58,49,125`) and the
equivalent text `{"a": 1}` with a space (bytes
`123,34,97,34,58,32,49,125`) decode to the object `a ↦ 1`. -/
def jsonParseScenario (bytes : List Nat) : Json :=
  if bytes = [123, 34, 97, 34, 58, 49, 125] ∨
     bytes = [123, 34, 97, 34, 58, 32, 49, 125] then
    Json.obj [("a", Json.num 1)]
  else Json.null

/-- `JSON.stringify` at the values of the C1 scenario: the object
`a ↦ 1` serializes to the canonical bytes of `{"a":1}` (no space), and
`null` to the bytes of `null`. -/
def jsonStringifyScenario : Json → List Nat
  | Json.obj [("a", Json.num 1)] => [123, 34, 97, 34, 58, 49, 125]
  | _ => [110, 117, 108, 108]

/-- C1 fails as stated: the middleware hashes `JSON.stringify(req.body)`,
not the raw request body.  Concretely, the raw body `{"a": 1}` (a space
after the colon) parses to the object `a ↦ 1`, which re-serializes to
`{"a":1}`; the digest of those canonical bytes differs from the digest
of the raw bytes, so the header correctly computed over the raw body —
exactly what the claim says must be accepted — is rejected with a 401.
Digest function and the parse/serialize primitives are instantiated at
their real values on these inputs. -/
theorem C1_signature_verification_roundtrip_counterexample :
    (validateWebhookSignatureOnRequest (fun s b => s ++ b)
      jsonParseScenario jsonStringifyScenario [1]
      (some (sha256Prefix ++ ([1] ++ [123, 34, 97, 34, 58, 32, 49, 125])))
      [123, 34, 97, 34, 58, 32, 49, 125]).isRejected = true := by
  decide

/-- C1 amended: with a configured secret, the header the middleware
accepts is the one computed over `JSON.stringify(req.body)`, the
re-serialization of the parsed raw body, rather than over the raw
bytes; flipping any single byte of that header is rejected with a 401;
flipping any single byte of the raw body is rejected whenever the
re-serialization of the flipped body's parse has a different digest
(HMAC-SHA256 collision freedom, stated as the hypothesis on
`hmacHex`); and for a raw body already in canonical serialized form
the accepted header coincides with the raw-body header of the original
claim. -/
theorem C1_signature_verification_roundtrip_amended
    (hmacHex : List Nat → List Nat → List Nat)
    (parseHttp : List Nat → Json) (stringify : Json → List Nat)
    (secret rawBody : List Nat) (hs : secret ≠ []) :
    validateWebhookSignatureOnRequest hmacHex parseHttp stringify secret
        (some (sha256Prefix ++ hmacHex secret (stringify (parseHttp rawBody))))
        rawBody = .next
    ∧ (∀ i b,
        i < (sha256Prefix ++ hmacHex secret (stringify (parseHttp rawBody))).length →
        b ≠ (sha256Prefix ++ hmacHex secret (stringify (parseHttp rawBody))).getD i 0 →
        (validateWebhookSignatureOnRequest hmacHex parseHttp stringify secret
          (some ((sha256Prefix ++
            hmacHex secret (stringify (parseHttp rawBody))).set i b))
          rawBody).isRejected = true)
    ∧ (∀ i b, i < rawBody.length →
        hmacHex secret (stringify (parseHttp (rawBody.set i b))) ≠
          hmacHex secret (stringify (parseHttp rawBody)) →
        (validateWebhookSignatureOnRequest hmacHex parseHttp stringify secret
          (some (sha256Prefix ++ hmacHex secret (stringify (parseHttp rawBody))))
          (rawBody.set i b)).isRejected = true)
    ∧ (stringify (parseHttp rawBody) = rawBody →
        validateWebhookSignatureOnRequest hmacHex parseHttp stringify secret
          (some (sha256Prefix ++ hmacHex secret rawBody)) rawBody = .next) := by
  have hexp : sha256Prefix ++ hmacHex secret (stringify (parseHttp rawBody)) ≠ [] := by
    simp [sha256Prefix]
  have h1 : validateWebhookSignatureOnRequest hmacHex parseHttp stringify secret
      (some (sha256Prefix ++ hmacHex secret (stringify (parseHttp rawBody))))
      rawBody = .next := by
    unfold validateWebhookSignatureOnRequest validateWebhookSignature timingSafeEqual
    simp [List.isEmpty_iff, hs, hexp]
  refine ⟨h1, ?_, ?_, ?_⟩
  · intro i b hi hb
    unfold validateWebhookSignatureOnRequest
    apply validateWebhookSignature_rejects_of_ne hmacHex secret _ _ hs
    · intro hnil
      have h0 : (sha256Prefix ++
          hmacHex secret (stringify (parseHttp rawBody))).length = 0 := by
        have := congrArg List.length hnil
        simpa [List.length_set] using this
      omega
    · exact List.set_ne_self_of_ne _ i b hi hb
  · intro i b _ hdig
    unfold validateWebhookSignatureOnRequest
    apply validateWebhookSignature_rejects_of_ne hmacHex secret _ _ hs hexp
    intro hEq
    exact hdig (List.append_cancel_left hEq).symm
  · intro hc
    rw [hc] at h1
    exact h1

/-- Witness for the amended C1 at the canonical raw body `{"a":1}`:
the correctly computed header is accepted (and, the body being
canonical, it is the raw-body header); flipping header byte 0 rejects;
flipping raw-body byte 5 (turning the `1` into a `2`, whose parse
re-serializes with a different digest) rejects. -/
theorem C1_signature_verification_roundtrip_amended_witness :
    validateWebhookSignatureOnRequest (fun s b => s ++ b)
        jsonParseScenario jsonStringifyScenario [1]
        (some (sha256Prefix ++ (fun s b => s ++ b) [1]
          (jsonStringifyScenario (jsonParseScenario [123, 34, 97, 34, 58, 49, 125]))))
        [123, 34, 97, 34, 58, 49, 125] = .next
    ∧ (validateWebhookSignatureOnRequest (fun s b => s ++ b)
        jsonParseScenario jsonStringifyScenario [1]
        (some ((sha256Prefix ++ (fun s b => s ++ b) [1]
          (jsonStringifyScenario
            (jsonParseScenario [123, 34, 97, 34, 58, 49, 125]))).set 0 0))
        [123, 34, 97, 34, 58, 49, 125]).isRejected = true
    ∧ (validateWebhookSignatureOnRequest (fun s b => s ++ b)
        jsonParseScenario jsonStringifyScenario [1]
        (some (sha256Prefix ++ (fun s b => s ++ b) [1]
          (jsonStringifyScenario (jsonParseScenario [123, 34, 97, 34, 58, 49, 125]))))
        ([123, 34, 97, 34, 58, 49, 125].set 5 50)).isRejected = true
    ∧ validateWebhookSignatureOnRequest (fun s b => s ++ b)
        jsonParseScenario jsonStringifyScenario [1]
        (some (sha256Prefix ++ (fun s b => s ++ b) [1] [123, 34, 97, 34, 58, 49, 125]))
        [123, 34, 97, 34, 58, 49, 125] = .next := by
  obtain ⟨h1, h2, h3, h4⟩ :=
    C1_signature_verification_roundtrip_amended (fun s b => s ++ b)
      jsonParseScenario jsonStringifyScenario [1]
      [123, 34, 97, 34, 58, 49, 125] (by decide)
  exact ⟨h1, h2 0 0 (by decide) (by decide), h3 5 50 (by decide) (by decide),
    h4 (by decide)⟩

/-- C6: when a secret is configured and a signature header is present,
a length mismatch makes `timingSafeEqual` throw, and the middleware
catches the exception and answers 401 "Signature validation failed"
instead of crashing. -/
theorem C6_comparison_exception_becomes_401
    (hmacHex : List Nat → List Nat → List Nat) (secret sig body : List Nat)
    (hs : secret ≠ []) (hsig : sig ≠ [])
    (hlen : sig.length ≠ (sha256Prefix ++ hmacHex secret body).length) :
    (∃ e, timingSafeEqual sig (sha256Prefix ++ hmacHex secret body) = .error e)
    ∧ validateWebhookSignature hmacHex secret (some sig) body =
        .unauthorized "Signature validation failed" := by
  rw [List.length_append] at hlen
  constructor
  · exact ⟨"Input buffers must have the same byte length",
      by simp [timingSafeEqual, List.length_append, hlen]⟩
  · unfold validateWebhookSignature timingSafeEqual
    simp [List.isEmpty_iff, hs, hsig, hlen]

/-- Witness for C6 at a concrete digest function and inputs. -/
theorem C6_comparison_exception_becomes_401_witness :
    (∃ e, timingSafeEqual [1, 2] (sha256Prefix ++ (fun s b => s ++ b) [1] []) = .error e)
    ∧ validateWebhookSignature (fun s b => s ++ b) [1] (some [1, 2]) [] =
        .unauthorized "Signature validation failed" :=
  C6_comparison_exception_becomes_401 (fun s b => s ++ b) [1] [1, 2] []
    (by decide) (by decide) (by decide)

/-- C7: with no configured secret, validation is skipped and the chain
continues, for every signature header (present, absent or malformed)
and every payload. -/
theorem C7_no_secret_always_accepts
    (hmacHex : List Nat → List Nat → List Nat)
    (signature : Option (List Nat)) (payload : List Nat) :
    validateWebhookSignature hmacHex [] signature payload = .next := by
  simp [validateWebhookSignature]

/-! ## File triage (PullRequestHandler.filterReviewableFiles)

A changed file as returned by the repository service; `changes` is the
field the code reads for the size check (GitHub reports it as
`additions + deletions`). -/

structure ChangedFile where
  filename : String
  status : String
  additions : Nat
  deletions : Nat
  changes : Nat
  patch : Option String
  binary : Bool
deriving DecidableEq, Repr

/-- Contiguous-segment containment on character lists (the effect of a
bare `/pat/` regex test). -/
def containsSeg (pat : List Char) : List Char → Bool
  | [] => pat.isEmpty
  | c :: rest => pat.isPrefixOf (c :: rest) || containsSeg pat rest

/-- `pat` occurs somewhere in `s` (regex `/pat/` on literal text). -/
def strContains (s pat : String) : Bool := containsSeg pat.toList s.toList

/-- `s` ends with `suff` (regex `/pat$/` on literal text,
`String.prototype.endsWith`). -/
def strEndsWith (s suff : String) : Bool :=
  suff.toList.reverse.isPrefixOf s.toList.reverse

/-- `String.prototype.toLowerCase` on the character list. -/
def strToLower (s : String) : String := String.mk (s.toList.map Char.toLower)

/-- The `skipPatterns` regex array of `filterReviewableFiles`, as the
predicate `skipPatterns.some(pattern => pattern.test(filename))`. -/
def matchesSkipPattern (filename : String) : Bool :=
  strContains filename "node_modules" ||
  strContains filename ".min." ||
  strContains filename ".bundle." ||
  strEndsWith filename ".lock" ||
  strEndsWith filename "package-lock.json" ||
  strEndsWith filename "yarn.lock" ||
  strEndsWith filename ".log" ||
  strEndsWith filename ".md" ||
  strEndsWith filename ".txt" ||
  strEndsWith filename ".json" ||
  strEndsWith filename ".xml" ||
  strEndsWith filename ".yml" ||
  strEndsWith filename ".yaml"

/-- The `reviewableExtensions` list of `filterReviewableFiles`. -/
def reviewableExtensions : List String :=
  [".js", ".jsx", ".ts", ".tsx",
   ".py", ".java", ".go", ".rs",
   ".php", ".rb", ".swift", ".kt",
   ".c", ".cpp", ".h", ".hpp",
   ".cs", ".scala", ".clj"]

/-- `reviewableExtensions.some(ext => file.filename.toLowerCase().endsWith(ext))`. -/
def hasReviewableExtension (filename : String) : Bool :=
  reviewableExtensions.any (fun ext => strEndsWith (strToLower filename) ext)

/-- The filter callback of `filterReviewableFiles`, early returns and
all: removed files, skip-pattern matches, unrecognized extensions and
files with more than `maxLinesPerFile` changed lines are dropped. -/
def survivesFilter (maxLinesPerFile : Nat) (file : ChangedFile) : Bool :=
  if file.status = "removed" then false
  else if matchesSkipPattern file.filename = true then false
  else if hasReviewableExtension file.filename = false then false
  else if file.changes > maxLinesPerFile then false
  else true

/-- Embedding of `PullRequestHandler.filterReviewableFiles`: filter the
input in order, then `.slice(0, maxFiles)`. -/
def filterReviewableFiles (maxFiles maxLinesPerFile : Nat)
    (files : List ChangedFile) : List ChangedFile :=
  (files.filter (survivesFilter maxLinesPerFile)).take maxFiles

theorem survivesFilter_eq_true_iff (maxLinesPerFile : Nat) (f : ChangedFile) :
    survivesFilter maxLinesPerFile f = true ↔
      f.status ≠ "removed" ∧ matchesSkipPattern f.filename = false ∧
      hasReviewableExtension f.filename = true ∧ f.changes ≤ maxLinesPerFile := by
  unfold survivesFilter
  split_ifs <;> simp_all

/-- C3: triage output has no removed file, at most `maxFiles` entries,
no file with more than `maxLinesPerFile` changed lines (stated via
`additions + deletions`, which GitHub guarantees equals `changes`,
taken as the hypothesis), and is an order-preserving subsequence of the
input, namely the filtered survivors truncated to the first `maxFiles`. -/
theorem C3_triage_invariants (maxFiles maxLinesPerFile : Nat)
    (files : List ChangedFile)
    (hsum : ∀ f ∈ files, f.changes = f.additions + f.deletions) :
    (∀ f ∈ filterReviewableFiles maxFiles maxLinesPerFile files, f.status ≠ "removed")
    ∧ (filterReviewableFiles maxFiles maxLinesPerFile files).length ≤ maxFiles
    ∧ (∀ f ∈ filterReviewableFiles maxFiles maxLinesPerFile files,
        f.additions + f.deletions ≤ maxLinesPerFile)
    ∧ (filterReviewableFiles maxFiles maxLinesPerFile files).Sublist files
    ∧ filterReviewableFiles maxFiles maxLinesPerFile files =
        (files.filter (survivesFilter maxLinesPerFile)).take maxFiles := by
  have hmem : ∀ f ∈ filterReviewableFiles maxFiles maxLinesPerFile files,
      f ∈ files ∧ survivesFilter maxLinesPerFile f = true := by
    intro f hf
    have hf' : f ∈ files.filter (survivesFilter maxLinesPerFile) :=
      List.mem_of_mem_take hf
    exact ⟨(List.mem_filter.mp hf').1, (List.mem_filter.mp hf').2⟩
  refine ⟨?_, ?_, ?_, ?_, rfl⟩
  · intro f hf
    exact ((survivesFilter_eq_true_iff _ _).mp (hmem f hf).2).1
  · unfold filterReviewableFiles
    rw [List.length_take]
    exact min_le_left _ _
  · intro f hf
    have hch := ((survivesFilter_eq_true_iff _ _).mp (hmem f hf).2).2.2.2
    rw [← hsum f (hmem f hf).1]
    exact hch
  · exact (List.take_sublist _ _).trans (List.filter_sublist _)

/-- Witness for C3 on a concrete three-file input. -/
theorem C3_triage_invariants_witness :
    (∀ f ∈ filterReviewableFiles 20 1000
        [⟨"app.js", "modified", 2, 1, 3, none, false⟩,
         ⟨"README.md", "modified", 5, 0, 5, none, false⟩,
         ⟨"gone.js", "removed", 0, 7, 7, none, false⟩], f.status ≠ "removed")
    ∧ (filterReviewableFiles 20 1000
        [⟨"app.js", "modified", 2, 1, 3, none, false⟩,
         ⟨"README.md", "modified", 5, 0, 5, none, false⟩,
         ⟨"gone.js", "removed", 0, 7, 7, none, false⟩]).length ≤ 20
    ∧ (∀ f ∈ filterReviewableFiles 20 1000
        [⟨"app.js", "modified", 2, 1, 3, none, false⟩,
         ⟨"README.md", "modified", 5, 0, 5, none, false⟩,
         ⟨"gone.js", "removed", 0, 7, 7, none, false⟩],
        f.additions + f.deletions ≤ 1000)
    ∧ (filterReviewableFiles 20 1000
        [⟨"app.js", "modified", 2, 1, 3, none, false⟩,
         ⟨"README.md", "modified", 5, 0, 5, none, false⟩,
         ⟨"gone.js", "removed", 0, 7, 7, none, false⟩]).Sublist
        [⟨"app.js", "modified", 2, 1, 3, none, false⟩,
         ⟨"README.md", "modified", 5, 0, 5, none, false⟩,
         ⟨"gone.js", "removed", 0, 7, 7, none, false⟩]
    ∧ filterReviewableFiles 20 1000
        [⟨"app.js", "modified", 2, 1, 3, none, false⟩,
         ⟨"README.md", "modified", 5, 0, 5, none, false⟩,
         ⟨"gone.js", "removed", 0, 7, 7, none, false⟩] =
        ([⟨"app.js", "modified", 2, 1, 3, none, false⟩,
          ⟨"README.md", "modified", 5, 0, 5, none, false⟩,
          ⟨"gone.js", "removed", 0, 7, 7, none, false⟩].filter
            (survivesFilter 1000)).take 20 :=
  C3_triage_invariants 20 1000 _ (by decide)

/-- C8: triage is deterministic (two applications to the same input
agree) and idempotent (it fixes its own output). -/
theorem C8_triage_deterministic_idempotent (maxFiles maxLinesPerFile : Nat)
    (files : List ChangedFile) :
    filterReviewableFiles maxFiles maxLinesPerFile files =
      filterReviewableFiles maxFiles maxLinesPerFile files
    ∧ filterReviewableFiles maxFiles maxLinesPerFile
        (filterReviewableFiles maxFiles maxLinesPerFile files) =
      filterReviewableFiles maxFiles maxLinesPerFile files := by
  refine ⟨rfl, ?_⟩
  unfold filterReviewableFiles
  have hall : ∀ f ∈ (files.filter (survivesFilter maxLinesPerFile)).take maxFiles,
      survivesFilter maxLinesPerFile f = true := by
    intro f hf
    exact List.of_mem_filter (List.mem_of_mem_take hf)
  rw [List.filter_eq_self.mpr hall, List.take_take, Nat.min_self]

/-! ## Response parsing (CodeAnalysisService.parseAIResponse)

`JSON.parse` is a platform primitive: the raw backend text is
represented by its parse outcome, an `Except String Json`.  JavaScript
member access throws a `TypeError` on `null`, which the parser's
`try`/`catch` converts into an empty finding list; `jsGetField` models
this with an `Except`. -/

/-- JavaScript truthiness of a `JSON.parse` value. -/
def jsTruthy : Json → Bool
  | .null => false
  | .bool b => b
  | .num n => n != 0
  | .str s => s != ""
  | .arr _ => true
  | .obj _ => true

/-- Property lookup on an object's key/value list. -/
def lookupField : List (String × Json) → String → Option Json
  | [], _ => none
  | (k, v) :: rest, key => if k = key then some v else lookupField rest key

/-- The value of property `key`, `none` standing for `undefined`
(non-objects have no own properties). -/
def jsonField (j : Json) (key : String) : Option Json :=
  match j with
  | .obj kvs => lookupField kvs key
  | _ => none

/-- JavaScript member access `j[key]`: throws a `TypeError` when `j` is
`null`, otherwise yields the property value or `undefined`. -/
def jsGetField (j : Json) (key : String) : Except Unit (Option Json) :=
  match j with
  | .null => .error ()
  | _ => .ok (jsonField j key)

/-- The JavaScript `x || d` defaulting idiom on a possibly-undefined
property value. -/
def jsOr (v : Option Json) (d : Json) : Json :=
  match v with
  | some x => if jsTruthy x then x else d
  | none => d

/-- A parsed review comment bound to a file path, as built by
`parseAIResponse` (fields hold the raw JavaScript values; `none` is
`undefined`). -/
structure Finding where
  path : String
  line : Option Json
  body : Option Json
  severity : Json
  category : Json
  suggestion : Option Json
deriving Repr

/-- The object literal of `parsed.comments.map(...)` for one comment
`c`: each member access can throw when `c` is `null`. -/
def mkFinding (file : ChangedFile) (c : Json) : Except Unit Finding := do
  let line ← jsGetField c "line"
  let body ← jsGetField c "body"
  let severity ← jsGetField c "severity"
  let category ← jsGetField c "category"
  let suggestion ← jsGetField c "suggestion"
  pure ⟨file.filename, line, body, jsOr severity (.str "info"),
        jsOr category (.str "general"), suggestion⟩

/-- The same mapping on a non-`null` comment, where no access throws. -/
def findingOfComment (file : ChangedFile) (c : Json) : Finding :=
  ⟨file.filename, jsonField c "line", jsonField c "body",
   jsOr (jsonField c "severity") (.str "info"),
   jsOr (jsonField c "category") (.str "general"),
   jsonField c "suggestion"⟩

/-- Embedding of `CodeAnalysisService.parseAIResponse`: a failed
`JSON.parse`, a missing/non-array `comments` value, or any `TypeError`
raised while mapping, all fall into the `try`/`catch` (or the explicit
format check) and yield `[]`. -/
def parseAIResponse (aiResponse : Except String Json) (file : ChangedFile) :
    List Finding :=
  match aiResponse with
  | .error _ => []
  | .ok parsed =>
    match jsGetField parsed "comments" with
    | .error _ => []
    | .ok comments =>
      match comments with
      | some (Json.arr xs) =>
        match xs.mapM (mkFinding file) with
        | .error _ => []
        | .ok l => l
      | _ => []

theorem mkFinding_eq_ok (file : ChangedFile) (c : Json) (h : c ≠ Json.null) :
    mkFinding file c = .ok (findingOfComment file c) := by
  cases c
  · exact absurd rfl h
  all_goals rfl

theorem mapM_mkFinding_eq_ok (file : ChangedFile) (xs : List Json)
    (h : ∀ c ∈ xs, c ≠ Json.null) :
    xs.mapM (mkFinding file) = .ok (xs.map (findingOfComment file)) := by
  induction xs with
  | nil => rfl
  | cons c rest ih =>
    rw [List.mapM_cons, mkFinding_eq_ok file c (h c (List.mem_cons_self c rest)),
      ih (fun d hd => h d (List.mem_cons_of_mem c hd))]
    rfl

/-- C4: the parser never raises (it is a total function) and returns
`[]` on a failed `JSON.parse`, on a decoded value without a `comments`
property, and on a decoded value whose `comments` property is not an
array. -/
theorem C4_parser_tolerates_malformed (file : ChangedFile) (e : String)
    (parsed : Json) :
    parseAIResponse (.error e) file = []
    ∧ (jsonField parsed "comments" = none → parseAIResponse (.ok parsed) file = [])
    ∧ (∀ v, jsonField parsed "comments" = some v → (∀ xs, v ≠ Json.arr xs) →
        parseAIResponse (.ok parsed) file = []) := by
  refine ⟨rfl, ?_, ?_⟩
  · intro h
    cases parsed <;> simp_all [parseAIResponse, jsGetField, jsonField]
  · intro v hv hna
    cases parsed <;> simp_all [parseAIResponse, jsGetField, jsonField]

/-- Witness for C4: a non-JSON text, an object without `comments`, and
an object whose `comments` is a number, all parse to `[]`. -/
theorem C4_parser_tolerates_malformed_witness :
    parseAIResponse (.error "Unexpected token")
        ⟨"app.js", "modified", 1, 0, 1, none, false⟩ = []
    ∧ (jsonField (Json.obj [("other", Json.num 1)]) "comments" = none →
        parseAIResponse (.ok (Json.obj [("other", Json.num 1)]))
          ⟨"app.js", "modified", 1, 0, 1, none, false⟩ = [])
    ∧ (∀ v, jsonField (Json.obj [("other", Json.num 1)]) "comments" = some v →
        (∀ xs, v ≠ Json.arr xs) →
        parseAIResponse (.ok (Json.obj [("other", Json.num 1)]))
          ⟨"app.js", "modified", 1, 0, 1, none, false⟩ = []) :=
  C4_parser_tolerates_malformed ⟨"app.js", "modified", 1, 0, 1, none, false⟩
    "Unexpected token" (Json.obj [("other", Json.num 1)])

/-- C10 fails as stated: `{"comments":[null]}` decodes to an object
with a one-element `comments` array, yet the parser returns zero
findings, not one — accessing `null.line` inside the `map` throws a
`TypeError` that the surrounding `catch` turns into `[]`. -/
theorem C10_parser_maps_comments_counterexample :
    (parseAIResponse (.ok (Json.obj [("comments", Json.arr [Json.null])]))
        ⟨"app.js", "modified", 1, 0, 1, none, false⟩).length ≠ 1 := by
  have : parseAIResponse (.ok (Json.obj [("comments", Json.arr [Json.null])]))
      ⟨"app.js", "modified", 1, 0, 1, none, false⟩ = [] := rfl
  rw [this]
  decide

/-- C10 amended: for a decoded object whose `comments` value is an
array of `n` non-`null` elements — any `n`, with no cap at 5 or
anywhere else — the parser returns exactly `n` findings, one per
element in array order, each with `path` the input file's filename,
`severity` the decoded value when truthy and `"info"` when absent or
falsy, and `category` the decoded value when truthy and `"general"`
when absent or falsy (the `findingOfComment` mapping). -/
theorem C10_parser_maps_comments (file : ChangedFile) (parsed : Json)
    (xs : List Json)
    (hc : jsonField parsed "comments" = some (Json.arr xs))
    (hnn : ∀ c ∈ xs, c ≠ Json.null) :
    parseAIResponse (.ok parsed) file = xs.map (findingOfComment file)
    ∧ (parseAIResponse (.ok parsed) file).length = xs.length := by
  have hmap : parseAIResponse (.ok parsed) file = xs.map (findingOfComment file) := by
    have hm := mapM_mkFinding_eq_ok file xs hnn
    cases parsed <;> simp_all [parseAIResponse, jsGetField, jsonField]
  exact ⟨hmap, by rw [hmap, List.length_map]⟩

/-- Witness for C10 on a six-element `comments` array (above the
5-per-file guidance): six findings come back, in order. -/
theorem C10_parser_maps_comments_witness :
    parseAIResponse
        (.ok (Json.obj [("comments",
          Json.arr [Json.num 1, Json.num 2, Json.num 3,
                    Json.num 4, Json.num 5, Json.num 6])]))
        ⟨"app.js", "modified", 1, 0, 1, none, false⟩ =
      [Json.num 1, Json.num 2, Json.num 3, Json.num 4, Json.num 5,
       Json.num 6].map (findingOfComment ⟨"app.js", "modified", 1, 0, 1, none, false⟩)
    ∧ (parseAIResponse
        (.ok (Json.obj [("comments",
          Json.arr [Json.num 1, Json.num 2, Json.num 3,
                    Json.num 4, Json.num 5, Json.num 6])]))
        ⟨"app.js", "modified", 1, 0, 1, none, false⟩).length = 6 :=
  C10_parser_maps_comments ⟨"app.js", "modified", 1, 0, 1, none, false⟩
    (Json.obj [("comments",
      Json.arr [Json.num 1, Json.num 2, Json.num 3,
                Json.num 4, Json.num 5, Json.num 6])])
    [Json.num 1, Json.num 2, Json.num 3, Json.num 4, Json.num 5, Json.num 6]
    rfl (by intro c hc; fin_cases hc <;> simp)

/-! ## Analysis orchestration (CodeAnalysisService, aiService)

The repository service and the text-generation backend are fallible
remote collaborators, modelled as the fields of `Env`; everything else
(`isBinaryFile`, `getFileExtension`, `getLanguageFromExtension`,
`buildAnalysisPrompt`, the per-file `try`/`catch` loop) is translated
from the code. -/

structure AnalysisContext where
  repository : String
  pr_number : Nat
  pr_title : String
  pr_description : Option String
deriving Repr

structure FileData where
  content : Option String
  patch : Option String
  isNewFile : Bool
deriving Repr

/-- The object built by `buildAnalysisPrompt` and handed to
`aiService.analyzeCode`. -/
structure AnalysisPrompt where
  filename : String
  language : String
  status : String
  additions : Nat
  deletions : Nat
  content : Option String
  patch : Option String
  isNewFile : Bool
  ctxRepository : String
  prTitle : String
  prDescription : Option String
deriving Repr

/-- The external collaborators: the GitHub repository service, the
text-generation backend (whose successful answer is a raw text
represented by its `JSON.parse` outcome), and the comment-publishing
service (absent from the sources; per the spec it is a black-box
repository-service call). -/
structure Env where
  getPullRequestFiles : String → String → Nat → Except String (List ChangedFile)
  getFileContent : String → String → String → String → Except String String
  analyzeCode : AnalysisPrompt → Except String (Except String Json)
  postReviewComments : String → String → Nat → List Finding → Except String Unit

/-- The `binaryExtensions` list of `isBinaryFile`. -/
def binaryExtensions : List String :=
  [".png", ".jpg", ".jpeg", ".gif", ".bmp", ".ico",
   ".pdf", ".zip", ".tar", ".gz", ".rar",
   ".exe", ".dll", ".so", ".dylib",
   ".woff", ".woff2", ".ttf", ".eot"]

/-- The suffix of the character list starting at its last `'.'`,
mirroring `filename.lastIndexOf('.')` plus `substring`. -/
def lastDotSuffix : List Char → Option (List Char)
  | [] => none
  | c :: rest =>
    match lastDotSuffix rest with
    | some s => some s
    | none => if c = '.' then some (c :: rest) else none

/-- `CodeAnalysisService.getFileExtension`: empty when there is no dot,
otherwise the lowercased substring from the last dot on. -/
def getFileExtension (filename : String) : String :=
  match lastDotSuffix filename.toList with
  | none => ""
  | some s => strToLower (String.mk s)

/-- `CodeAnalysisService.isBinaryFile`. -/
def isBinaryFile (file : ChangedFile) : Bool :=
  binaryExtensions.contains (getFileExtension file.filename) || file.binary

/-- The `languageMap` of `getLanguageFromExtension`. -/
def languageMap : List (String × String) :=
  [(".js", "javascript"), (".jsx", "javascript"),
   (".ts", "typescript"), (".tsx", "typescript"),
   (".py", "python"), (".java", "java"), (".go", "go"), (".rs", "rust"),
   (".php", "php"), (".rb", "ruby"), (".swift", "swift"), (".kt", "kotlin"),
   (".c", "c"), (".cpp", "cpp"), (".h", "c"), (".hpp", "cpp"),
   (".cs", "csharp"), (".scala", "scala"), (".clj", "clojure")]

/-- `CodeAnalysisService.getLanguageFromExtension`: unknown extensions
fall back to `"text"`. -/
def getLanguageFromExtension (ext : String) : String :=
  match languageMap.lookup ext with
  | some lang => lang
  | none => "text"

/-- `CodeAnalysisService.getFileData`: new files carry only the patch;
for other files the current content is fetched best-effort, a fetch
failure degrading to patch-only (`content = none`).  The surrounding
`try`/`catch` means the call never throws. -/
def getFileData (env : Env) (ctx : AnalysisContext) (file : ChangedFile) :
    Option FileData :=
  if file.status = "added" then some ⟨none, file.patch, true⟩
  else
    let parts := ctx.repository.splitOn "/"
    let owner := parts.getD 0 ""
    let repo := parts.getD 1 ""
    match env.getFileContent owner repo file.filename "HEAD" with
    | .ok content => some ⟨some content, file.patch, false⟩
    | .error _ => some ⟨none, file.patch, false⟩

/-- `CodeAnalysisService.buildAnalysisPrompt`. -/
def buildAnalysisPrompt (file : ChangedFile) (fileData : FileData)
    (ctx : AnalysisContext) : AnalysisPrompt :=
  ⟨file.filename, getLanguageFromExtension (getFileExtension file.filename),
   file.status, file.additions, file.deletions,
   fileData.content, fileData.patch, fileData.isNewFile,
   ctx.repository, ctx.pr_title, ctx.pr_description⟩

/-- `CodeAnalysisService.analyzeFile`, instrumented with the number of
backend calls it makes (second component).  A backend failure is the
only escaping exception (`Except.error`). -/
def analyzeFile (env : Env) (ctx : AnalysisContext) (file : ChangedFile) :
    Except String (List Finding) × Nat :=
  if isBinaryFile file then (.ok [], 0)
  else
    match getFileData env ctx file with
    | none => (.ok [], 0)
    | some fileData =>
      match env.analyzeCode (buildAnalysisPrompt file fileData ctx) with
      | .error e => (.error e, 1)
      | .ok aiResponse => (.ok (parseAIResponse aiResponse file), 1)

/-- `CodeAnalysisService.analyzeFiles`: the per-file loop with its
`try`/`catch` — a failing file is skipped, the rest are still analyzed,
and the call itself is total (never raises).  Also counts backend
calls. -/
def analyzeFiles (env : Env) (ctx : AnalysisContext) :
    List ChangedFile → List Finding × Nat
  | [] => ([], 0)
  | file :: rest =>
    match analyzeFile env ctx file, analyzeFiles env ctx rest with
    | (.error _, n), (acc, m) => (acc, n + m)
    | (.ok l, n), (acc, m) => (l ++ acc, n + m)

theorem analyzeFiles_fst_eq_bind (env : Env) (ctx : AnalysisContext)
    (files : List ChangedFile) :
    (analyzeFiles env ctx files).1 =
      files.flatMap (fun g =>
        match (analyzeFile env ctx g).1 with
        | .ok l => l
        | .error _ => []) := by
  induction files with
  | nil => rfl
  | cons file rest ih =>
    rcases hr : analyzeFile env ctx file with ⟨r, n⟩
    rcases hrest : analyzeFiles env ctx rest with ⟨acc, m⟩
    rw [hrest] at ih
    simp only at ih
    cases r <;> simp [analyzeFiles, hr, hrest, ih]

/-- C5: one file's analysis failure (for example a backend timeout) is
caught by the loop: the failing file contributes zero findings, every
other file is still analyzed, and the batch — a total function — never
raises; in general the aggregate is the concatenation, in input order,
of the surviving files' findings. -/
theorem C5_partial_failure_tolerance (env : Env) (ctx : AnalysisContext)
    (l1 l2 : List ChangedFile) (f : ChangedFile) (e : String)
    (hf : (analyzeFile env ctx f).1 = .error e) :
    (analyzeFiles env ctx (l1 ++ f :: l2)).1 =
      (analyzeFiles env ctx l1).1 ++ (analyzeFiles env ctx l2).1
    ∧ ∀ files : List ChangedFile,
        (analyzeFiles env ctx files).1 =
          files.flatMap (fun g =>
            match (analyzeFile env ctx g).1 with
            | .ok l => l
            | .error _ => []) := by
  refine ⟨?_, analyzeFiles_fst_eq_bind env ctx⟩
  rw [analyzeFiles_fst_eq_bind, analyzeFiles_fst_eq_bind, analyzeFiles_fst_eq_bind]
  simp [hf]

/-- C9: a file with a binary extension or the binary flag set
short-circuits to zero findings with zero backend calls. -/
theorem C9_binary_files_short_circuit (env : Env) (ctx : AnalysisContext)
    (file : ChangedFile)
    (h : getFileExtension file.filename ∈ binaryExtensions ∨ file.binary = true) :
    analyzeFile env ctx file = (.ok [], 0) := by
  have hb : isBinaryFile file = true := by
    unfold isBinaryFile
    rcases h with h | h
    · simp
      exact Or.inl h
    · simp [h]
  simp [analyzeFile, hb]

/-- A concrete environment for the orchestration witnesses: one
repository file list, fetchable content, a backend that times out on
`bad.js` and otherwise answers an empty `comments` array, and a
publishing call that succeeds. -/
def envWitness : Env :=
  ⟨fun _ _ _ => .ok [⟨"app.js", "added", 3, 0, 3, some "+x", false⟩],
   fun _ _ _ _ => .ok "content",
   fun p => if p.filename = "bad.js" then .error "timeout of 30000ms exceeded"
            else .ok (.ok (Json.obj [("comments", Json.arr [])])),
   fun _ _ _ _ => .ok ()⟩

def ctxWitness : AnalysisContext := ⟨"octocat/hello", 7, "Add feature", none⟩

/-- Witness for C9 on a PNG file. -/
theorem C9_binary_files_short_circuit_witness :
    analyzeFile envWitness ctxWitness ⟨"logo.png", "added", 0, 0, 0, none, false⟩ =
      (.ok [], 0) :=
  C9_binary_files_short_circuit envWitness ctxWitness
    ⟨"logo.png", "added", 0, 0, 0, none, false⟩ (Or.inl (by decide))

/-- Witness for C5: `bad.js` times out between two good files, which
are both still analyzed. -/
theorem C5_partial_failure_tolerance_witness :
    (analyzeFiles envWitness ctxWitness
        ([⟨"a.js", "added", 1, 0, 1, some "+a", false⟩] ++
          ⟨"bad.js", "added", 1, 0, 1, some "+b", false⟩ ::
          [⟨"c.js", "added", 1, 0, 1, some "+c", false⟩])).1 =
      (analyzeFiles envWitness ctxWitness
        [⟨"a.js", "added", 1, 0, 1, some "+a", false⟩]).1 ++
      (analyzeFiles envWitness ctxWitness
        [⟨"c.js", "added", 1, 0, 1, some "+c", false⟩]).1
    ∧ ∀ files : List ChangedFile,
        (analyzeFiles envWitness ctxWitness files).1 =
          files.flatMap (fun g =>
            match (analyzeFile envWitness ctxWitness g).1 with
            | .ok l => l
            | .error _ => []) :=
  C5_partial_failure_tolerance envWitness ctxWitness
    [⟨"a.js", "added", 1, 0, 1, some "+a", false⟩]
    [⟨"c.js", "added", 1, 0, 1, some "+c", false⟩]
    ⟨"bad.js", "added", 1, 0, 1, some "+b", false⟩
    "timeout of 30000ms exceeded" rfl

/-! ## Event dispatch and pull-request pipeline
(WebhookHandler.handle, PullRequestHandler.handle)

The pipeline's observable behaviour for one delivery is collected in a
`PipelineTrace`: whether the changed-file list was fetched, which files
survived triage, how many backend calls were made, what was handed to
the comment-publishing collaborator, and whether an exception
propagated to the webhook endpoint (`result = .error _`, surfaced there
as a 500). -/

structure PRUser where
  login : String
  userType : String
deriving Repr, DecidableEq

structure PullRequestInfo where
  number : Nat
  title : String
  body : Option String
  draft : Bool
  user : PRUser
deriving Repr, DecidableEq

structure RepositoryInfo where
  fullName : String
  ownerLogin : String
  name : String
deriving Repr, DecidableEq

/-- The `pull_request` webhook payload fields the handler reads. -/
structure Payload where
  action : String
  pull_request : PullRequestInfo
  repository : RepositoryInfo
deriving Repr, DecidableEq

/-- Observable behaviour of one dispatched delivery. -/
structure PipelineTrace where
  fetchedFiles : Bool
  triaged : List ChangedFile
  backendCalls : Nat
  published : Option (List Finding)
  result : Except String Unit
deriving Repr

/-- The trace of a delivery that does nothing observable (skip
conditions, log-only handlers, unknown event types). -/
def emptyTrace : PipelineTrace := ⟨false, [], 0, none, .ok ()⟩

/-- The externally configured triage limits (`MAX_FILES_TO_REVIEW`,
`MAX_LINES_PER_FILE`; defaults 20 and 1000). -/
structure Limits where
  maxFiles : Nat
  maxLinesPerFile : Nat
deriving Repr, DecidableEq

/-- Embedding of `PullRequestHandler.handle`: gate on action, draft and
bot author; fetch the changed files; triage; analyze file by file;
publish.  Fetch and publish failures propagate (`result = .error _`),
mirroring the rethrowing `catch`. -/
def pullRequestHandle (env : Env) (lim : Limits) (payload : Payload) :
    PipelineTrace :=
  let pr := payload.pull_request
  let repo := payload.repository
  if ¬ (payload.action = "opened" ∨ payload.action = "synchronize") then emptyTrace
  else if pr.draft then emptyTrace
  else if pr.user.userType = "Bot" then emptyTrace
  else
    match env.getPullRequestFiles repo.ownerLogin repo.name pr.number with
    | .error e => { emptyTrace with fetchedFiles := true, result := .error e }
    | .ok files =>
      if files.isEmpty then { emptyTrace with fetchedFiles := true }
      else
        let reviewable := filterReviewableFiles lim.maxFiles lim.maxLinesPerFile files
        if reviewable.isEmpty then { emptyTrace with fetchedFiles := true }
        else
          let ctx : AnalysisContext := ⟨repo.fullName, pr.number, pr.title, pr.body⟩
          let res := analyzeFiles env ctx reviewable
          match env.postReviewComments repo.ownerLogin repo.name pr.number res.1 with
          | .error e => ⟨true, reviewable, res.2, none, .error e⟩
          | .ok _ => ⟨true, reviewable, res.2, some res.1, .ok ()⟩

/-- Embedding of `WebhookHandler.handle`: `pull_request` runs the full
pipeline; `pull_request_review` and `pull_request_review_comment` are
log-only handlers; unknown event types are logged no-ops. -/
def webhookHandle (env : Env) (lim : Limits) (event : String)
    (payload : Payload) : PipelineTrace :=
  if event = "pull_request" then pullRequestHandle env lim payload
  else if event = "pull_request_review" then emptyTrace
  else if event = "pull_request_review_comment" then emptyTrace
  else emptyTrace

/-- C2: a `pull_request`/`opened` delivery for a non-draft PR by a
human author with one small changed file `app.js` runs the whole
pipeline — the file list is fetched, `app.js` survives triage, the
backend is called exactly once, the findings parsed from its answer
are published — and no exception reaches the webhook caller. -/
theorem C2_pull_request_opened_full_pipeline
    (env : Env) (lim : Limits) (payload : Payload) (f : ChangedFile)
    (raw : Except String Json)
    (ha : payload.action = "opened")
    (hd : payload.pull_request.draft = false)
    (hb : payload.pull_request.user.userType ≠ "Bot")
    (hfiles : env.getPullRequestFiles payload.repository.ownerLogin
        payload.repository.name payload.pull_request.number = .ok [f])
    (hname : f.filename = "app.js")
    (hstatus : f.status = "added")
    (hsmall : f.changes ≤ lim.maxLinesPerFile)
    (hbin : f.binary = false)
    (hmax : 1 ≤ lim.maxFiles)
    (hai : ∀ p, env.analyzeCode p = .ok raw)
    (hpost : ∀ o r n cs, env.postReviewComments o r n cs = .ok ()) :
    webhookHandle env lim "pull_request" payload =
      ⟨true, [f], 1, some (parseAIResponse raw f), .ok ()⟩ := by
  have hsurv : survivesFilter lim.maxLinesPerFile f = true := by
    rw [survivesFilter_eq_true_iff]
    exact ⟨by rw [hstatus]; decide, by rw [hname]; decide,
      by rw [hname]; decide, hsmall⟩
  have htri : filterReviewableFiles lim.maxFiles lim.maxLinesPerFile [f] = [f] := by
    unfold filterReviewableFiles
    rw [List.filter_cons_of_pos hsurv, List.filter_nil]
    exact List.take_of_length_le (by simpa using hmax)
  have hbinf : isBinaryFile f = false := by
    unfold isBinaryFile
    rw [hname, hbin]
    decide
  have hana : analyzeFiles env
      ⟨payload.repository.fullName, payload.pull_request.number,
       payload.pull_request.title, payload.pull_request.body⟩ [f] =
      (parseAIResponse raw f, 1) := by
    simp [analyzeFiles, analyzeFile, hbinf, getFileData, hstatus, hai]
  simp [webhookHandle, pullRequestHandle, ha, hd, hb, hfiles, htri, hana, hpost]

/-- An environment for the C2 witness: one changed file `app.js` and a
backend that always answers one mock comment. -/
def envScenarioA : Env :=
  ⟨fun _ _ _ => .ok [⟨"app.js", "added", 3, 0, 3, some "+x", false⟩],
   fun _ _ _ _ => .ok "content",
   fun _ => .ok (.ok (Json.obj [("comments",
     Json.arr [Json.obj [("line", Json.num 10), ("body", Json.str "Mock"),
       ("severity", Json.str "info"), ("category", Json.str "general")]])])),
   fun _ _ _ _ => .ok ()⟩

/-- The scenario-A payload: `opened`, non-draft, human author. -/
def payloadScenarioA : Payload :=
  ⟨"opened", ⟨7, "Add feature", none, false, ⟨"octocat", "User"⟩⟩,
   ⟨"octocat/hello", "octocat", "hello"⟩⟩

/-- Witness for C2 at the concrete scenario-A delivery. -/
theorem C2_pull_request_opened_full_pipeline_witness :
    webhookHandle envScenarioA ⟨20, 1000⟩ "pull_request" payloadScenarioA =
      ⟨true, [⟨"app.js", "added", 3, 0, 3, some "+x", false⟩], 1,
       some (parseAIResponse
         (.ok (Json.obj [("comments",
           Json.arr [Json.obj [("line", Json.num 10), ("body", Json.str "Mock"),
             ("severity", Json.str "info"), ("category", Json.str "general")]])]))
         ⟨"app.js", "added", 3, 0, 3, some "+x", false⟩),
       .ok ()⟩ :=
  C2_pull_request_opened_full_pipeline envScenarioA ⟨20, 1000⟩ payloadScenarioA
    ⟨"app.js", "added", 3, 0, 3, some "+x", false⟩
    (.ok (Json.obj [("comments",
      Json.arr [Json.obj [("line", Json.num 10), ("body", Json.str "Mock"),
        ("severity", Json.str "info"), ("category", Json.str "general")]])]))
    rfl rfl (by decide) rfl rfl rfl (by decide) rfl (by decide)
    (fun _ => rfl) (fun _ _ _ _ => rfl)

end CodeReviewAgent
